import Mathlib

/-
Verification of the ghpr-tools repository (src/crawler.py, src/writer.py).

The Python source is shallowly embedded as executable Lean definitions:
 - strings are modelled as `List Char` where character-level reasoning is
   needed, `String` otherwise;
 - Unix timestamps (results of `_iso_to_unix`) are `Int`;
 - network traffic is modelled by explicit data parameters (a page number
   to item list map for the paginated endpoints, scripted per-request
   outcomes for the HTTP layer);
 - recursive / looping Python code is embedded with an explicit fuel
   parameter; exhausted fuel is the `none` / `fuelOut` result, so genuine
   non-termination of the source shows up as `= none` for every fuel.

Definition names follow the Python names where possible.
-/

-- ===================================================================
-- Shared character helpers (Python `re` character classes, ASCII range)
-- ===================================================================

/-- Python regex `\s` (ASCII range): space, tab, newline, carriage return,
vertical tab, form feed. -/
def isPySpace (c : Char) : Bool :=
  c = ' ' || c = '\t' || c = '\n' || c = '\r' || c = '\x0b' || c = '\x0c'

/-- Python regex `\w` (ASCII range): letters, digits, underscore.
`\b` holds between a `\w` character and a non-`\w` character. -/
def isWordChar (c : Char) : Bool :=
  c.isAlpha || c.isDigit || c = '_'

/-- Numeric value of a digit string, as computed by Python `int(...)`. -/
def digitsToNat (ds : List Char) : Nat :=
  ds.foldl (fun n c => n * 10 + (c.toNat - 48)) 0

-- ===================================================================
-- crawler.py: link extractor (_linked_issues_pattern_template,
-- _make_linked_issues_regex, _extract_linked_issue_numbers)
-- ===================================================================

/-- The closing-keyword vocabulary of `_linked_issues_pattern_template`,
in the source's alternation order. -/
def closingKeywords : List String :=
  ["close", "closes", "closed", "fix", "fixes", "fixed",
   "resolve", "resolves", "resolved"]

/-- Case-insensitive literal match: if `pat` is a case-insensitive
prefix of `s`, return the remainder of `s`. This is how `re.IGNORECASE`
treats every literal in the pattern, including the `owner`/`repo` text,
whose `.` characters the source escapes with `re`-escaping so that they
match only literally (`_make_linked_issues_regex`). -/
def ciPrefixDrop : List Char → List Char → Option (List Char)
  | [], s => some s
  | _ :: _, [] => none
  | p :: ps, c :: cs => if p.toLower = c.toLower then ciPrefixDrop ps cs else none

/-- Match `(\d+)\b` at the front of `s`: the maximal digit run must be
non-empty and must not be followed by a word character (shorter digit
splits always put a digit, a word character, next, so backtracking
cannot succeed where the maximal run fails). -/
def matchNumTail (s : List Char) : Option (Nat × List Char) :=
  let ds := s.takeWhile Char.isDigit
  let rest := s.dropWhile Char.isDigit
  if ds.isEmpty then none
  else
    match rest with
    | [] => some (digitsToNat ds, [])
    | c :: _ => if isWordChar c then none else some (digitsToNat ds, rest)

/-- The three reference forms of the pattern, in alternation order:
full URL, `owner/repo#`, bare `#`. -/
def refAlts (owner repo : List Char) : List (List Char) :=
  ["https://github.com/".data ++ owner ++ ['/'] ++ repo ++ "/issues/".data,
   owner ++ ['/'] ++ repo ++ ['#'],
   ['#']]

/-- Match `(?:URL|owner/repo#|#)(\d+)\b` at the front of `s`, trying the
alternatives in the source's order (first full match wins, as in `re`). -/
def matchRefTail (owner repo : List Char) (s : List Char) : Option (Nat × List Char) :=
  (refAlts owner repo).findSome? fun p => (ciPrefixDrop p s).bind matchNumTail

/-- Match `(?:close|...|resolved)\s+(?:...)(\d+)\b` at the front of `s`:
try each keyword in alternation order; after the keyword at least one
whitespace character is required (`\s+`, taken greedily — no reference
alternative begins with whitespace, so the maximal run is exact). -/
def matchKeywordAt (owner repo : List Char) (s : List Char) : Option (Nat × List Char) :=
  closingKeywords.findSome? fun kw =>
    (ciPrefixDrop kw.data s).bind fun s1 =>
      match s1 with
      | [] => none
      | c :: _ =>
        if isPySpace c then matchRefTail owner repo (s1.dropWhile isPySpace)
        else none

/-- `re.findall` over the body: scan left to right, at each position
require the leading `\b` (previous character absent or non-word), try
the pattern, and on success continue after the matched digits
(non-overlapping matches; the character before the continuation point
is a digit, so only its word-character status is tracked).
`fuel` bounds the scan; every step consumes at least one character of
the body, so `body.length + 1` fuel is exact. -/
def findallIssueRefs (owner repo : List Char) : Nat → Option Char → List Char → List Nat
  | 0, _, _ => []
  | _ + 1, _, [] => []
  | fuel + 1, prev, c :: rest =>
    let boundary := match prev with | none => true | some pc => !isWordChar pc
    match (if boundary then matchKeywordAt owner repo (c :: rest) else none) with
    | some (n, s') => n :: findallIssueRefs owner repo fuel (some '0') s'
    | none => findallIssueRefs owner repo fuel (some c) rest

/-- crawler.py `_extract_linked_issue_numbers`: `None` body yields `[]`;
otherwise all matches of the linked-issues regex, in order of
appearance, duplicates preserved. The regex argument is replaced by the
`owner`/`repo` it was compiled from (`_make_linked_issues_regex`). -/
def _extract_linked_issue_numbers (pullBody : Option String) (owner repo : String) : List Nat :=
  match pullBody with
  | none => []
  | some b => findallIssueRefs owner.data repo.data (b.data.length + 1) none b.data

-- ===================================================================
-- crawler.py: boundary resolver (_find_start_page, _find_end_page)
-- ===================================================================

/-- Python 3 `round((start + stop)/2)` for naturals: exact halves round
to the nearest even integer (banker's rounding). -/
def pyRoundHalf (start stop : Nat) : Nat :=
  let t := start + stop
  if t % 2 = 0 then t / 2
  else if (t / 2) % 2 = 0 then t / 2 else t / 2 + 1

/-- crawler.py `Crawler._find_start_page`, with the paginated stream
abstracted to `pages : Nat → List Int` (the `created_at` instants of the
items on each page, the only field the function reads) and the crawl
window start `startDate` (`self.start_date`). `fuel` bounds the
recursion depth; `none` means the fuel ran out, so
"`= none` for every fuel" is exactly non-termination of the source. -/
def _find_start_page (pages : Nat → List Int) (startDate : Int) :
    Nat → Nat → Nat → Option Nat
  | 0, _, _ => none
  | fuel + 1, start, stop =>
    let mid := pyRoundHalf start stop
    let firstDate := (pages mid).headD 0
    let lastDate := (pages mid).getLastD 0
    if start = stop then
      if startDate > lastDate then some (mid + 1) else some mid
    else if startDate < firstDate then _find_start_page pages startDate fuel start mid
    else if startDate > lastDate then _find_start_page pages startDate fuel mid stop
    else some mid

/-- crawler.py `Crawler._find_end_page`, abstracted exactly like
`_find_start_page`, driven by the crawl window end `endDate`
(`self.end_date`). -/
def _find_end_page (pages : Nat → List Int) (endDate : Int) :
    Nat → Nat → Nat → Option Nat
  | 0, _, _ => none
  | fuel + 1, start, stop =>
    let mid := pyRoundHalf start stop
    let firstDate := (pages mid).headD 0
    let lastDate := (pages mid).getLastD 0
    if start = stop then
      if endDate < firstDate then some (mid - 1) else some mid
    else if endDate < firstDate then _find_end_page pages endDate fuel start mid
    else if endDate > lastDate then _find_end_page pages endDate fuel mid stop
    else some mid

/-- A two-page stream, strictly ascending within and across pages:
page 1 holds items created at 0 and 10, page 2 (and beyond) items
created at 100 and 110. With window start 50, the smallest page holding
an item created at or after 50 is page 2. -/
def pagesTwoA : Nat → List Int := fun p => if p = 1 then [0, 10] else [100, 110]

/-- A two-page stream for the end search: page 1 holds items created at
10 and 20, page 2 items created at 30 and 40. -/
def pagesTwoB : Nat → List Int := fun p => if p = 1 then [10, 20] else [30, 40]

-- ===================================================================
-- crawler.py: rate-limited fetcher (_try_to_get, _get)
-- ===================================================================

/-- What one `requests.get` call does, seen from `_try_to_get`:
raise an exception; return a non-ok response (with its status code and
the `X-Ratelimit-Remaining` / `X-Ratelimit-Reset` headers, `none` when a
header is absent, plus the value of `time.time()` at handling time);
return an ok response whose JSON payload is a dict with a `message` key
(an embedded error envelope); or return an ok response. -/
inductive Attempt where
  | exception
  | notOk (status : Nat) (remaining : Option Int) (reset : Option Int) (now : Int)
  | okErrorMessage
  | success (n : Nat)
deriving DecidableEq

/-- The first component of the Python tuple `(r, ok)`: `None`, the empty
dict `{}` (returned for 404), or a response object. -/
inductive RVal where
  | null
  | emptyDict
  | resp (n : Nat)
deriving DecidableEq

/-- What `_try_to_get` evaluates to. Python returns either a 2-tuple or
— on the exception path and the error-envelope path — a bare `None`,
which is not a tuple; the caller's unpacking `r, ok = ...` then raises
`TypeError`. `outOfScript` is a model artifact: the scripted attempt
list ran out. -/
inductive TryOut where
  | bareNone
  | pair (r : RVal) (ok : Bool)
  | outOfScript
deriving DecidableEq

/-- The rate-limit test of crawler.py line 375: `X-Ratelimit-Remaining`
present and below 1, and `X-Ratelimit-Reset` present. -/
def rlHeaders (remaining reset : Option Int) : Bool :=
  (match remaining with | some v => decide (v < 1) | none => false) && reset.isSome

/-- crawler.py `Crawler._try_to_get` over a scripted list of request
outcomes for the (fixed) url; returns the Python result, the unconsumed
script, and the rate-limit sleep durations performed, in order. A
rate-limited response sleeps `reset - now + 1` seconds and retries the
same url recursively without any further bookkeeping. -/
def _try_to_get : List Attempt → TryOut × List Attempt × List Int
  | [] => (.outOfScript, [], [])
  | .exception :: rest => (.bareNone, rest, [])
  | .okErrorMessage :: rest => (.bareNone, rest, [])
  | .success n :: rest => (.pair (.resp n) true, rest, [])
  | .notOk status remaining reset now :: rest =>
    if status = 404 then (.pair .emptyDict false, rest, [])
    else if rlHeaders remaining reset then
      let o := _try_to_get rest
      (o.1, o.2.1, (reset.getD 0 - now + 1) :: o.2.2)
    else (.pair .null false, rest, [])

/-- How a call of `_get` ends: a returned `(r, ok)` pair; the
`TooManyRequestFailures` raise; the `TypeError` raised by unpacking the
bare `None` of `_try_to_get`; or the model artifacts of an exhausted
script / exhausted fuel. -/
inductive GetResult where
  | got (r : RVal) (ok : Bool)
  | tooManyFailures
  | typeError
  | outOfScript
  | fuelOut
deriving DecidableEq

/-- Observable outcome of `_get`: its result, the number of tries the
retry loop consumed (`tries` increments), the number of
`request_retry_wait_secs` sleeps performed, and the rate-limit sleep
durations performed inside `_try_to_get`, in order. -/
structure GetOut where
  result : GetResult
  triesConsumed : Nat
  retrySleeps : Nat
  rateWaits : List Int
deriving DecidableEq

/-- crawler.py `Crawler._get` (`maxTries` is `self.max_request_tries`):
loop on `_try_to_get`; a non-`None` first component is returned as is;
a `None` first component consumes a try, and once `tries` reaches
`maxTries` the loop raises `TooManyRequestFailures` (before any sleep),
otherwise it sleeps `request_retry_wait_secs` once and retries. Each
loop iteration consumes at least one scripted attempt, so
`attempts.length + 1` fuel is exact. -/
def _get (maxTries : Nat) : Nat → List Attempt → Nat → GetOut
  | 0, _, _ => ⟨.fuelOut, 0, 0, []⟩
  | fuel + 1, attempts, tries =>
    let o := _try_to_get attempts
    match o.1 with
    | .outOfScript => ⟨.outOfScript, 0, 0, o.2.2⟩
    | .bareNone => ⟨.typeError, 0, 0, o.2.2⟩
    | .pair r ok =>
      if r = .null then
        if tries + 1 ≥ maxTries then ⟨.tooManyFailures, 1, 0, o.2.2⟩
        else
          let g := _get maxTries fuel o.2.1 (tries + 1)
          ⟨g.result, g.triesConsumed + 1, g.retrySleeps + 1, o.2.2 ++ g.rateWaits⟩
      else ⟨.got r ok, 0, 0, o.2.2⟩

/-- A response is handled by the rate-limit branch of `_try_to_get` iff
it is not ok, its status is not 404 (checked first), its remaining-quota
header is present and below 1, and its reset header is present. -/
def IsRateLimited (a : Attempt) : Bool :=
  match a with
  | .notOk status remaining reset _ => decide (status ≠ 404) && rlHeaders remaining reset
  | _ => false

/-- The sleep duration of a rate-limited response: until one second
after the reset instant (crawler.py line 376). -/
def rlWaitSecs (a : Attempt) : Int :=
  match a with
  | .notOk _ _ reset now => reset.getD 0 - now + 1
  | _ => 0

/-- A concrete rate-limited response: 403, zero remaining quota, reset
at instant 100, handled at instant 50. -/
def rlAttempt : Attempt := .notOk 403 (some 0) (some 100) 50

-- ===================================================================
-- crawler.py: start-page selection in crawl (lines 171-190)
-- ===================================================================

/-- `_iso_to_unix("2015-01-01T00:00:00Z")`. -/
def unix2015 : Int := 1420070400

/-- `_iso_to_unix("2014-01-01T00:00:00Z")`, a start instant before the
2015 data epoch. -/
def unix2014 : Int := 1388534400

/-- crawler.py `crawl` lines 171-180, the pulls start-page selection
(the issues branch, lines 181-190, is identical in shape).
`startPageArg` is the `start_page_pulls` argument, `startDate` is
`self.start_date`, and `searchResult` stands for the value
`self._get_starting_page(url)` would return (the binary search over
page space). Returns the selected start page and whether
`_get_starting_page` was invoked. Inside the `< 1` branch the source
assigns `start_page_pulls = 1` when the start date is before 2015, and
then — with no `else` — line 178 unconditionally overwrites it with the
search result; the dead store is kept as `shortcutPage`. -/
def resolveStartPage (startPageArg : Int) (startDate : Int) (searchResult : Int) :
    Int × Bool :=
  if startPageArg < 1 then
    let _shortcutPage : Int := if startDate < unix2015 then 1 else startPageArg
    (searchResult, true)
  else
    (startPageArg, false)

-- ===================================================================
-- crawler.py: the pulls crawl loop (crawl, lines 216-264)
-- ===================================================================

/-- An item of a pulls list page, restricted to the fields the crawl
loop reads: `number`, `created_at` (already converted by
`_iso_to_unix`), and `body`. -/
structure PullItem where
  number : Nat
  created_at : Int
  body : Option String
deriving DecidableEq

/-- The network as the crawl loop sees it: the pulls list page for each
page number together with the `ok` flag of its `_get_json` (a `False`
flag is the 404 path of `_get`, the only way `_get` returns un-raised
with `ok = False`); and the returned `ok` flags of the pull-detail,
diff, and issue fetches, keyed by number. -/
structure CrawlNet where
  pullsPage : Nat → List PullItem × Bool
  pullOk : Nat → Bool
  diffOk : Nat → Bool
  issueOk : Nat → Bool

/-- The crawler configuration read by the pulls loop. -/
structure CrawlCfg where
  per_page : Nat
  start_date : Int
  end_date : Int
  max_issue_number : Int
  save_pull_pages : Bool
  end_page_pulls : Int
  owner : String
  repo : String

/-- The mutable state of the pulls loop: the counters, the
`list_issues` memo of issue numbers saved via pulls, the persisted
artifacts (pages, pulls with their embedded `linked_issue_numbers`
field, diffs, issues — each a list of save events in order), and the
interruption flag. Asynchronous signal delivery is outside the
embedding: nothing in the loop body sets the flag. -/
structure CrawlSt where
  numIssues : Nat
  numPulls : Nat
  listIssues : List Nat
  savedPages : List Nat
  savedPulls : List (Nat × List Nat)
  savedDiffs : List Nat
  savedIssues : List Nat
  interrupted : Bool
deriving DecidableEq

/-- crawl lines 246-252: fetch and save each linked issue; a failed
(404) fetch skips that issue; a saved issue bumps `num_issues` and is
recorded in the `list_issues` memo. -/
def processLinkedIssues (net : CrawlNet) : CrawlSt → List Nat → CrawlSt
  | st, [] => st
  | st, n :: ns =>
    if net.issueOk n then
      processLinkedIssues net
        { st with
          savedIssues := st.savedIssues ++ [n],
          numIssues := st.numIssues + 1,
          listIssues := if n ∈ st.listIssues then st.listIssues else st.listIssues ++ [n] } ns
    else processLinkedIssues net st ns

/-- crawl line 225 / 254 / 258: the optional maximum-item cap. -/
def capReached (cfg : CrawlCfg) (numIssues : Nat) : Bool :=
  decide (cfg.max_issue_number > 0 ∧ (numIssues : Int) ≥ cfg.max_issue_number)

/-- crawl line 225: the explicit end-page bound. -/
def endReached (cfg : CrawlCfg) (page : Nat) : Bool :=
  decide (cfg.end_page_pulls > 0 ∧ (page : Int) > cfg.end_page_pulls)

/-- crawl lines 231-255, the `for p in pulls` body: skip items outside
the window; extract the linked issue numbers from the body; fetch the
pull detail and the diff, skipping the item if either comes back with
`ok = False`; save the diff and the pull (with `linked_issue_numbers`
embedded); process the linked issues; bump `num_pulls`; break out of
the page when the item cap is reached. -/
def processPullItems (cfg : CrawlCfg) (net : CrawlNet) : CrawlSt → List PullItem → CrawlSt
  | st, [] => st
  | st, p :: ps =>
    if p.created_at < cfg.start_date ∨ p.created_at > cfg.end_date then
      processPullItems cfg net st ps
    else
      let linked := _extract_linked_issue_numbers p.body cfg.owner cfg.repo
      if !net.pullOk p.number then processPullItems cfg net st ps
      else if !net.diffOk p.number then processPullItems cfg net st ps
      else
        let st1 := { st with
          savedDiffs := st.savedDiffs ++ [p.number],
          savedPulls := st.savedPulls ++ [(p.number, linked)] }
        let st2 := processLinkedIssues net st1 linked
        let st3 := { st2 with numPulls := st2.numPulls + 1 }
        if capReached cfg st3.numIssues then st3
        else processPullItems cfg net st3 ps

/-- crawl lines 229-230: persist the raw page when `save_pull_pages`. -/
def savePageStep (cfg : CrawlCfg) (page : Nat) (st : CrawlSt) : CrawlSt :=
  if cfg.save_pull_pages then { st with savedPages := st.savedPages ++ [page] } else st

/-- crawl lines 225-264, the pulls `while` loop: at the top of each
iteration stop on interruption, on the item cap, or past the end-page
bound; fetch the page (re-fetching the same page on a failed fetch, as
`continue` does not advance `page`); optionally persist the page;
process its items; then break if the page returned strictly fewer items
than `per_page` or the cap was reached, else advance to the next page.
Returns the list of page numbers requested, in request order, and the
final state. `fuel` bounds the number of iterations. -/
def pullsLoop (cfg : CrawlCfg) (net : CrawlNet) : Nat → Nat → CrawlSt → List Nat × CrawlSt
  | 0, _, st => ([], st)
  | fuel + 1, page, st =>
    if st.interrupted || capReached cfg st.numIssues || endReached cfg page then
      ([], st)
    else
      let (pulls, ok) := net.pullsPage page
      if !ok then
        let (ps, st') := pullsLoop cfg net fuel page st
        (page :: ps, st')
      else
        let st1 := savePageStep cfg page st
        let st2 := processPullItems cfg net st1 pulls
        if decide (pulls.length < cfg.per_page) || capReached cfg st2.numIssues then
          ([page], st2)
        else
          let (ps, st') := pullsLoop cfg net fuel (page + 1) st2
          (page :: ps, st')

/-- A concrete crawler configuration: page size 100, a wide window, no
item cap, no explicit end page. -/
def cfgDemo : CrawlCfg :=
  ⟨100, 0, 1000000, -1, false, -1, "OWNER", "REPO"⟩

/-- A final page of 37 items (page size 100). -/
def items37 : List PullItem := List.replicate 37 ⟨1, 5, none⟩

/-- A network whose pulls stream has `items37` as page 1 and nothing
after it; every detail, diff, and issue fetch succeeds. -/
def netDemo : CrawlNet :=
  ⟨fun p => if p = 1 then (items37, true) else ([], true),
   fun _ => true, fun _ => true, fun _ => true⟩

/-- The initial state of the pulls loop (crawl lines 218-222). -/
def crawlSt0 : CrawlSt := ⟨0, 0, [], [], [], [], [], false⟩

/-- An in-window pull item whose detail fetch will 404 in `netSkip`. -/
def badItem : PullItem := ⟨2, 5, none⟩

/-- An in-window pull item whose fetches succeed and whose body links
issue 4. -/
def goodItem : PullItem := ⟨3, 5, some "Fixes #4"⟩

/-- A network where the detail fetch of pull 2 comes back not ok and
everything else succeeds. -/
def netSkip : CrawlNet :=
  ⟨fun _ => ([], true), fun n => decide (n ≠ 2), fun _ => true, fun _ => true⟩

-- ===================================================================
-- writer.py: diff attribution (_get_section_changes) and the export
-- sum check (write_dataset lines 170-196)
-- ===================================================================

/-- One entry of `pull['section_data']`: the three counters of
`_section_attributes`. -/
structure SectionData where
  changed_files : Nat
  additions : Nat
  deletions : Nat
deriving DecidableEq

/-- writer.py `_sections`: the ordered path-prefix rules, with the
catch-all `'other '` last. -/
def _sections : List String :=
  ["build/", "cli/", "extensions/", "remote/", "resources/", "scripts/",
   "src/", "test/", "other "]

/-- writer.py `_section_attributes`. -/
def _section_attributes : List String :=
  ["changed_files", "additions", "deletions"]

/-- Diff lines are modelled as `List Char` with the trailing `'\n'` of
`_read_diff`'s `readlines` stripped; the `\n$` anchor of
`_diff_file_pattern` and the `$` of `_diff_file_anchor_pattern` then
correspond to the end of the list. Drop everything up to and including
the first occurrence of `pat` (the lazy `(?:.*?)` of the file pattern
stops at the first ` b/`). -/
def dropAfterFirst (pat : List Char) : List Char → Option (List Char)
  | [] => none
  | c :: rest =>
    if pat.isPrefixOf (c :: rest) then some ((c :: rest).drop pat.length)
    else dropAfterFirst pat rest

/-- writer.py `_diff_file_pattern`,
`^diff --git a\/(?:.*?) b\/(.*?)\n$`: on a newline-terminated line this
matches iff the line starts with `diff --git a/` and contains ` b/`
after it, capturing everything after the first ` b/` (the captured
group runs to the final newline because `.` cannot match `\n`). -/
def diffFileMatch (line : List Char) : Option (List Char) :=
  if "diff --git a/".data.isPrefixOf line then
    dropAfterFirst " b/".data (line.drop 13)
  else none

/-- `\S*?\/` of the anchor pattern: scanning from the front, a `/` must
appear before any whitespace character. -/
def nonSpaceThenSlash : List Char → Bool
  | [] => false
  | c :: rest =>
    if c = '/' then true else if isPySpace c then false else nonSpaceThenSlash rest

/-- writer.py `_diff_file_anchor_pattern`,
`(?:---|\+\+\+) \S*?\/(.*?)$` used with `.match` (anchored at the line
start): the line starts with `--- ` or `+++ ` and a `/` follows with
only non-whitespace characters before it. -/
def anchorMatch (line : List Char) : Bool :=
  ("--- ".data.isPrefixOf line || "+++ ".data.isPrefixOf line) &&
    nonSpaceThenSlash (line.drop 4)

/-- Python `line.startswith(c)` for a single character. -/
def startsWithChar (c : Char) : List Char → Bool
  | [] => false
  | x :: _ => x == c

/-- Python `next((i for (i, s) in enumerate(xs) if pred(s)), d)`: the
index of the first element satisfying `pred`, or the default `d`. -/
def nextIdxD (pred : String → Bool) : List String → Nat → Nat → Nat
  | [], _, d => d
  | s :: ss, i, d => if pred s then i else nextIdxD pred ss (i + 1) d

/-- writer.py line 222: the section a filename is assigned to — the
first section whose prefix matches, defaulting to
`len(_sections) - 1`, the catch-all. -/
def sectionOf (filename : List Char) : Nat :=
  nextIdxD (fun s => s.data.isPrefixOf filename) _sections 0 (_sections.length - 1)

/-- Modelled from the spec's words for comparison with `sectionOf`:
"the file is assigned to the first section whose prefix matches `Y`,
falling back to the catch-all". -/
def firstMatchingSection (filename : List Char) : Nat :=
  if "build/".data.isPrefixOf filename then 0
  else if "cli/".data.isPrefixOf filename then 1
  else if "extensions/".data.isPrefixOf filename then 2
  else if "remote/".data.isPrefixOf filename then 3
  else if "resources/".data.isPrefixOf filename then 4
  else if "scripts/".data.isPrefixOf filename then 5
  else if "src/".data.isPrefixOf filename then 6
  else if "test/".data.isPrefixOf filename then 7
  else 8

/-- The loop state of `_get_section_changes`: `pull['section_data']`
(indexed by section number; indices at or above `len(_sections)` are
never touched), `current_section`, and `current_filename`. -/
structure DiffState where
  sectionData : Nat → SectionData
  currentSection : Nat
  currentFilename : List Char

/-- writer.py lines 214-216: all counters zero, current section the
catch-all, current filename the empty string. -/
def initDiffState : DiffState :=
  { sectionData := fun _ => ⟨0, 0, 0⟩,
    currentSection := _sections.length - 1,
    currentFilename := [] }

/-- writer.py lines 218-231, the body of the `for line in diff` loop:
a file-header line whose filename differs from the previously seen one
assigns the file to its section and bumps that section's
`changed_files` (a header repeating the current filename is skipped);
header lines fall through to the next line (`continue`); otherwise a
`+`/`-` line that does not match the anchor pattern bumps the current
section's `additions`/`deletions`. -/
def processDiffLine (st : DiffState) (line : List Char) : DiffState :=
  match diffFileMatch line with
  | some filename =>
    if filename ≠ st.currentFilename then
      let cs := sectionOf filename
      { sectionData := Function.update st.sectionData cs
          ({ st.sectionData cs with
              changed_files := (st.sectionData cs).changed_files + 1 }),
        currentSection := cs,
        currentFilename := filename }
    else st
  | none =>
    if startsWithChar '+' line && !anchorMatch line then
      let v := { st.sectionData st.currentSection with
        additions := (st.sectionData st.currentSection).additions + 1 }
      { st with sectionData := Function.update st.sectionData st.currentSection v }
    else if startsWithChar '-' line && !anchorMatch line then
      let v := { st.sectionData st.currentSection with
        deletions := (st.sectionData st.currentSection).deletions + 1 }
      { st with sectionData := Function.update st.sectionData st.currentSection v }
    else st

/-- writer.py `_get_section_changes` over the diff's lines. -/
def _get_section_changes (diff : List (List Char)) : DiffState :=
  diff.foldl processDiffLine initDiffState

/-- A line counted by the additions branch: not a file header, starts
with `+`, not an anchor line. -/
def addLine (l : List Char) : Bool :=
  (diffFileMatch l).isNone && startsWithChar '+' l && !anchorMatch l

/-- A line counted by the deletions branch. -/
def delLine (l : List Char) : Bool :=
  (diffFileMatch l).isNone && startsWithChar '-' l && !anchorMatch l

/-- Number of addition lines of a diff fragment. -/
def countAdds (lines : List (List Char)) : Nat := (lines.filter addLine).length

/-- Number of deletion lines of a diff fragment. -/
def countDels (lines : List (List Char)) : Nat := (lines.filter delLine).length

/-- The sum of one attribute over all sections, as in writer.py line
176: `sum(pull['section_data'][i][a] for i in range(len(_sections)))`. -/
def attrTotal (f : SectionData → Nat) (sd : Nat → SectionData) : Nat :=
  ((List.range _sections.length).map (fun i => f (sd i))).sum

/-- The per-section `changed_files` counters as a list. -/
def cfList (sd : Nat → SectionData) : List Nat :=
  (List.range _sections.length).map (fun i => (sd i).changed_files)

/-- The number of distinct files assigned to each section for a
two-file diff touching `A` and `B` (with `A ≠ B`). -/
def cfTwoFiles (A B : List Char) : List Nat :=
  (List.range _sections.length).map
    (fun i => (if sectionOf A = i then 1 else 0) + (if sectionOf B = i then 1 else 0))

/-- Concrete two-file diff material: file A under the `src/` section. -/
def fileA : List Char := "src/a.ts".data

/-- File B matching no tracked prefix (catch-all). -/
def fileB : List Char := "README.md".data

/-- The `diff --git` header line introducing file A. -/
def headerA : List Char := "diff --git a/src/a.ts b/src/a.ts".data

/-- The `diff --git` header line introducing file B. -/
def headerB : List Char := "diff --git a/README.md b/README.md".data

/-- Two hunks for file A: two additions and one deletion. -/
def bodyADemo : List (List Char) :=
  ["@@ -1,1 +1,2 @@".data, "+foo".data, "-bar".data, "@@ -9 +9 @@".data, "+baz".data]

/-- One hunk for file B with its `---`/`+++` anchors and one addition. -/
def bodyBDemo : List (List Char) :=
  ["--- a/README.md".data, "+++ b/README.md".data, "+hello".data]

-- writer.py: the export step around the sum check

/-- The fields of a saved pull object read by the export slice: the
pull's own reported totals and its `linked_issue_numbers`. -/
structure WPull where
  changed_files : Nat
  additions : Nat
  deletions : Nat
  linked_issue_numbers : List Nat
deriving DecidableEq

/-- `pull[a]` for `a` in `_section_attributes`. -/
def pullAttr (p : WPull) (a : String) : Nat :=
  if a = "changed_files" then p.changed_files
  else if a = "additions" then p.additions
  else p.deletions

/-- `pull['section_data'][i][a]` for `a` in `_section_attributes`. -/
def sectionAttr (d : SectionData) (a : String) : Nat :=
  if a = "changed_files" then d.changed_files
  else if a = "additions" then d.additions
  else d.deletions

/-- writer.py line 176, the checked sum for one attribute. -/
def sectionAttrSum (sd : Nat → SectionData) (a : String) : Nat :=
  ((List.range _sections.length).map (fun i => sectionAttr (sd i) a)).sum

/-- The observable outcome of the per-pull export slice: the section
data the rows are built from, which attributes line 176 reported as
mismatched (prints, nothing else), and the rows written — one per
in-window linked issue, modelled as the issue number paired with the
section data `_dataset_row` reads. -/
structure ExportOut where
  section_data : Nat → SectionData
  mismatchLogs : List String
  rows : List (Nat × (Nat → SectionData))

/-- writer.py write_dataset lines 170-192 for one pull already inside
the window, with file I/O abstracted: sort the linked issue numbers
(line 170); run `_get_section_changes` (line 173); for each attribute
compare the section sum with the pull's reported total, recording (only
printing, lines 175-180) the mismatching attributes; then write one row
per linked issue inside the window (lines 185-190), each built from the
(unadjusted) section data. The floating-point relative columns of
`_dataset_row` are outside the model. -/
def processPullExport (startDate endDate : Int) (pull : WPull)
    (diff : List (List Char)) (issueCreatedAt : Nat → Int) : ExportOut :=
  let sortedLinked := pull.linked_issue_numbers.insertionSort (· ≤ ·)
  let st := _get_section_changes diff
  let logs := _section_attributes.filter
    (fun a => decide (sectionAttrSum st.sectionData a ≠ pullAttr pull a))
  let rows := (sortedLinked.filter
    (fun n => !decide (issueCreatedAt n < startDate ∨ issueCreatedAt n > endDate))).map
    (fun n => (n, st.sectionData))
  ⟨st.sectionData, logs, rows⟩

/-- A concrete one-file diff: one changed file under `src/`, one
addition, one deletion. -/
def diffDemo : List (List Char) :=
  ["diff --git a/src/x b/src/x".data, "+a".data, "-b".data]

/-- A concrete pull whose reported totals all disagree with `diffDemo`
and which links issue 4. -/
def pullMismatch : WPull := ⟨99, 99, 99, [4]⟩

-- ===================================================================
-- THEOREMS
-- ===================================================================

/-- C1. The claim states that on every monotonically increasing stream
`_find_start_page` on `[1, last_page]` returns the smallest page
containing an item created at or after the window start. It fails: on
the two-page stream `pagesTwoA` with window start 50 and `last_page = 2`
the answer is page 2, but `round((1+2)/2) = 2` (Python rounds 1.5 to the
even 2), the probe at page 2 sees `50 < first_date = 100`, and the
source recurses on the identical interval `(1, 2)`, forever. Embedded
with fuel, the call returns `none` for every fuel instead of `some 2`. -/
theorem c1_find_start_page_diverges :
    ∀ fuel, _find_start_page pagesTwoA 50 fuel 1 2 = none := by
  intro fuel
  induction fuel with
  | zero => rfl
  | succ n ih =>
    have h : _find_start_page pagesTwoA 50 (n + 1) 1 2 =
        _find_start_page pagesTwoA 50 n 1 2 := by
      norm_num [_find_start_page, pagesTwoA, pyRoundHalf]
    rw [h, ih]

/-- C10. The claim states that both recursive binary searches terminate
on every interval `[start, stop]` with `1 ≤ start ≤ stop`. It fails for
the collapsing two-page case the claim itself singles out: on interval
`[1, 2]` the midpoint `round(1.5)` is 2, and when the goal instant lies
before every item of page 2 (`_find_end_page` with end goal 25 on
`pagesTwoB`, whose page 2 starts at 30) the source recurses on the
identical interval with identical page contents, forever. Embedded with
fuel, the call returns `none` for every fuel. -/
theorem c10_find_end_page_diverges :
    ∀ fuel, _find_end_page pagesTwoB 25 fuel 1 2 = none := by
  intro fuel
  induction fuel with
  | zero => rfl
  | succ n ih =>
    have h : _find_end_page pagesTwoB 25 (n + 1) 1 2 =
        _find_end_page pagesTwoB 25 n 1 2 := by
      norm_num [_find_end_page, pagesTwoB, pyRoundHalf]
    rw [h, ih]

/-- C6. Link extraction: a `None` body yields `[]` for every owner and
repo and never an error; matches are returned in order of appearance
with duplicates preserved; the documented example
`extract("Fixes #12 and closes OWNER/REPO#34", "OWNER", "REPO")` gives
`[12, 34]`; a reference embedded in a larger word (`#123abc`) is not
matched (trailing `\b`); a keyword embedded in a larger word
(`prefixes`) is not matched (leading `\b`); closing keywords match
case-insensitively; and the escaped dot in `owner`/`repo` matches only
a literal dot, not any character. -/
theorem c6_link_extraction :
    (∀ owner repo : String, _extract_linked_issue_numbers none owner repo = [])
    ∧ _extract_linked_issue_numbers (some "Fixes #12 and closes OWNER/REPO#34")
        "OWNER" "REPO" = [12, 34]
    ∧ _extract_linked_issue_numbers (some "Fixes #123abc") "OWNER" "REPO" = []
    ∧ _extract_linked_issue_numbers (some "fixes #7, FIXES #7 and resolves #5")
        "OWNER" "REPO" = [7, 7, 5]
    ∧ _extract_linked_issue_numbers (some "prefixes #1") "OWNER" "REPO" = []
    ∧ _extract_linked_issue_numbers (some "fixes a.b/c#9") "a.b" "c" = [9]
    ∧ _extract_linked_issue_numbers (some "fixes aXb/c#9") "a.b" "c" = [] := by
  refine ⟨fun owner repo => rfl, ?_, ?_, ?_, ?_, ?_, ?_⟩ <;> decide

/-- C3. The claim states that every failure other than 404 and rate
limiting — a network exception, a non-2xx status, or a payload carrying
an error message — consumes one try, sleeps, and retries, with
`TooManyRequestFailures` after `max_request_tries` failures; in
particular a fetch failing twice then succeeding consumes 2 tries and
sleeps twice. It fails: on the exception path (crawler.py line 384) and
the error-payload path (line 387) `_try_to_get` returns a bare `None`
instead of a `(None, False)` tuple, so the unpacking `r, ok = ...` in
`_get` raises `TypeError` at once — zero tries consumed, zero sleeps,
no retry, no `TooManyRequestFailures`. Only the plain non-2xx path
(line 381) retries as claimed: the third conjunct shows it consuming
exactly 2 tries and 2 sleeps before succeeding. -/
theorem c3_failure_paths_raise_typeerror :
    _get 100 5 [Attempt.exception, Attempt.exception, Attempt.success 7] 0 =
      ⟨.typeError, 0, 0, []⟩
    ∧ _get 100 5 [Attempt.okErrorMessage, Attempt.success 7] 0 =
      ⟨.typeError, 0, 0, []⟩
    ∧ _get 100 5 [Attempt.notOk 500 none none 0, Attempt.notOk 500 none none 0,
        Attempt.success 7] 0 = ⟨.got (.resp 7) true, 2, 2, []⟩ := by
  refine ⟨?_, ?_, ?_⟩ <;> decide

/-- Prepending rate-limited responses to the script changes
`_try_to_get` only by the rate-limit sleeps it performs, one of
`reset - now + 1` seconds per response. -/
theorem try_to_get_rl_script (pre rest : List Attempt)
    (h : ∀ a ∈ pre, IsRateLimited a = true) :
    _try_to_get (pre ++ rest) =
      ((_try_to_get rest).1, (_try_to_get rest).2.1,
        pre.map rlWaitSecs ++ (_try_to_get rest).2.2) := by
  induction pre with
  | nil => simp
  | cons a pre ih =>
    have ha := h a (List.mem_cons_self a pre)
    have hpre : ∀ x ∈ pre, IsRateLimited x = true :=
      fun x hx => h x (List.mem_cons_of_mem a hx)
    have hih := ih hpre
    cases a with
    | exception => simp [IsRateLimited] at ha
    | okErrorMessage => simp [IsRateLimited] at ha
    | success n => simp [IsRateLimited] at ha
    | notOk status remaining reset now =>
      simp only [IsRateLimited, Bool.and_eq_true, decide_eq_true_eq] at ha
      rw [List.cons_append]
      simp only [_try_to_get, if_neg ha.1, ha.2, if_true]
      rw [hih]
      simp [rlWaitSecs]

/-- C4. A rate-limited response (remaining-quota header present and
below 1, reset header present, status not the 404 short-circuit) makes
`_try_to_get` sleep `reset - now + 1` seconds — until one second after
the reset instant — and retry the same url recursively. Any number of
rate-limited responses in front of the script leaves the result, the
tries consumed, and the retry-sleep count of `_get` unchanged — only
the list of rate-limit waits grows — so no sequence of rate-limited
responses brings the fetch closer to `TooManyRequestFailures`. -/
theorem c4_rate_limit_preserves_budget (maxTries fuel tries : Nat)
    (pre rest : List Attempt) (h : ∀ a ∈ pre, IsRateLimited a = true) :
    _get maxTries (fuel + 1) (pre ++ rest) tries =
      ⟨(_get maxTries (fuel + 1) rest tries).result,
       (_get maxTries (fuel + 1) rest tries).triesConsumed,
       (_get maxTries (fuel + 1) rest tries).retrySleeps,
       pre.map rlWaitSecs ++ (_get maxTries (fuel + 1) rest tries).rateWaits⟩ := by
  simp only [_get]
  rw [try_to_get_rl_script pre rest h]
  cases htt : (_try_to_get rest).1 with
  | outOfScript => simp
  | bareNone => simp
  | pair r ok =>
    by_cases hr : r = .null
    · by_cases hmax : tries + 1 ≥ maxTries
      · simp [hr, hmax]
      · simp [hr, hmax, List.append_assoc]
    · simp [hr]

/-- Witness for C4 at a concrete input: two rate-limited responses in
front of a success leave the result and both budget counters of `_get`
untouched and add exactly their two waits of `100 - 50 + 1 = 51`
seconds. -/
theorem c4_rate_limit_preserves_budget_witness :
    (∀ a ∈ [rlAttempt, rlAttempt], IsRateLimited a = true)
    ∧ _get 3 2 ([rlAttempt, rlAttempt] ++ [Attempt.success 7]) 0 =
      ⟨(_get 3 2 [Attempt.success 7] 0).result,
       (_get 3 2 [Attempt.success 7] 0).triesConsumed,
       (_get 3 2 [Attempt.success 7] 0).retrySleeps,
       [rlAttempt, rlAttempt].map rlWaitSecs ++
         (_get 3 2 [Attempt.success 7] 0).rateWaits⟩ :=
  ⟨by decide, c4_rate_limit_preserves_budget 3 1 0 [rlAttempt, rlAttempt]
    [Attempt.success 7] (by decide)⟩

/-- C5. The claim states that a crawl window starting before the
2015-01-01 data epoch, with no explicit start page, starts the stream at
page 1 and performs no binary search. It fails: crawler.py line 175
assigns `start_page_pulls = 1`, but line 178 — outside any `else` —
unconditionally overwrites it with `self._get_starting_page(...)`, so
the binary search runs anyway and its result, not page 1, is used. With
a 2014-01-01 start date and `start_page_pulls = -1`, a search returning
42 yields start page 42 with the search flag set. -/
theorem c5_pre2015_shortcut_overwritten :
    resolveStartPage (-1) unix2014 42 = (42, true)
    ∧ unix2014 < unix2015 := by
  refine ⟨?_, ?_⟩ <;> decide

/-- C7. When a fetched page holds strictly fewer items than `per_page`
and no stop condition (interruption, item cap, end-page bound) has
triggered at the top of the iteration, the pulls loop finishes that
page and stops: the pages requested from this point on are exactly
`[page]` — no further page is ever fetched — and the final state is the
full processing of that page's items. -/
theorem c7_short_page_stops (cfg : CrawlCfg) (net : CrawlNet) (fuel page : Nat)
    (st : CrawlSt) (items : List PullItem)
    (hint : st.interrupted = false)
    (hcap : capReached cfg st.numIssues = false)
    (hend : endReached cfg page = false)
    (hpage : net.pullsPage page = (items, true))
    (hlen : items.length < cfg.per_page) :
    pullsLoop cfg net (fuel + 1) page st =
      ([page], processPullItems cfg net (savePageStep cfg page st) items) := by
  simp [pullsLoop, hint, hcap, hend, hpage, hlen]

/-- Witness for C7 at a concrete input: page size 100, page 1 returns
37 items, every stop condition is clear — the loop requests page 1
only. -/
theorem c7_short_page_stops_witness :
    (crawlSt0.interrupted = false ∧ capReached cfgDemo crawlSt0.numIssues = false
      ∧ endReached cfgDemo 1 = false ∧ netDemo.pullsPage 1 = (items37, true)
      ∧ items37.length < cfgDemo.per_page)
    ∧ pullsLoop cfgDemo netDemo 1 1 crawlSt0 =
        ([1], processPullItems cfgDemo netDemo (savePageStep cfgDemo 1 crawlSt0) items37) :=
  ⟨⟨rfl, by decide, by decide, by decide, by decide⟩,
   c7_short_page_stops cfgDemo netDemo 0 1 crawlSt0 items37 rfl (by decide)
     (by decide) (by decide) (by decide)⟩

/-- Processing linked issues touches only the issue fields of the
state: the persisted pulls and diffs are unchanged. -/
theorem processLinkedIssues_saved (net : CrawlNet) (ns : List Nat) (st : CrawlSt) :
    (processLinkedIssues net st ns).savedPulls = st.savedPulls
    ∧ (processLinkedIssues net st ns).savedDiffs = st.savedDiffs := by
  induction ns generalizing st with
  | nil => exact ⟨rfl, rfl⟩
  | cons n ns ih =>
    simp only [processLinkedIssues]
    by_cases h : net.issueOk n = true
    · rw [if_pos h]; exact ih _
    · rw [if_neg h]; exact ih _

/-- A pull-save event already recorded stays recorded through the rest
of the page (the save lists only grow). -/
theorem processPullItems_savedPulls_mono (cfg : CrawlCfg) (net : CrawlNet)
    (items : List PullItem) (st : CrawlSt) (x : Nat × List Nat)
    (hx : x ∈ st.savedPulls) :
    x ∈ (processPullItems cfg net st items).savedPulls := by
  induction items generalizing st with
  | nil => exact hx
  | cons p ps ih =>
    simp only [processPullItems]
    by_cases hwin : p.created_at < cfg.start_date ∨ p.created_at > cfg.end_date
    · rw [if_pos hwin]; exact ih _ hx
    · rw [if_neg hwin]
      by_cases hp : net.pullOk p.number = true
      · by_cases hd : net.diffOk p.number = true
        · simp only [hp, hd, Bool.not_true, Bool.false_eq_true, if_false]
          have hsp := processLinkedIssues_saved net
            (_extract_linked_issue_numbers p.body cfg.owner cfg.repo)
            { st with
              savedDiffs := st.savedDiffs ++ [p.number],
              savedPulls := st.savedPulls ++
                [(p.number, _extract_linked_issue_numbers p.body cfg.owner cfg.repo)] }
          by_cases hc : capReached cfg (processLinkedIssues net
              { st with
                savedDiffs := st.savedDiffs ++ [p.number],
                savedPulls := st.savedPulls ++
                  [(p.number, _extract_linked_issue_numbers p.body cfg.owner cfg.repo)] }
              (_extract_linked_issue_numbers p.body cfg.owner cfg.repo)).numIssues = true
          · rw [if_pos hc]
            show x ∈ (processLinkedIssues net _ _).savedPulls
            rw [hsp.1]
            exact List.mem_append_left _ hx
          · rw [if_neg hc]
            refine ih _ ?_
            show x ∈ (processLinkedIssues net _ _).savedPulls
            rw [hsp.1]
            exact List.mem_append_left _ hx
        · simp only [hp, Bool.not_true, Bool.false_eq_true, if_false,
            Bool.not_eq_true] at *
          rw [hd]
          simp only [Bool.not_false, if_true]
          exact ih _ hx
      · simp only [Bool.not_eq_true] at hp
        rw [hp]
        simp only [Bool.not_false, if_true]
        exact ih _ hx

/-- A diff-save event already recorded stays recorded through the rest
of the page. -/
theorem processPullItems_savedDiffs_mono (cfg : CrawlCfg) (net : CrawlNet)
    (items : List PullItem) (st : CrawlSt) (x : Nat)
    (hx : x ∈ st.savedDiffs) :
    x ∈ (processPullItems cfg net st items).savedDiffs := by
  induction items generalizing st with
  | nil => exact hx
  | cons p ps ih =>
    simp only [processPullItems]
    by_cases hwin : p.created_at < cfg.start_date ∨ p.created_at > cfg.end_date
    · rw [if_pos hwin]; exact ih _ hx
    · rw [if_neg hwin]
      by_cases hp : net.pullOk p.number = true
      · by_cases hd : net.diffOk p.number = true
        · simp only [hp, hd, Bool.not_true, Bool.false_eq_true, if_false]
          have hsp := processLinkedIssues_saved net
            (_extract_linked_issue_numbers p.body cfg.owner cfg.repo)
            { st with
              savedDiffs := st.savedDiffs ++ [p.number],
              savedPulls := st.savedPulls ++
                [(p.number, _extract_linked_issue_numbers p.body cfg.owner cfg.repo)] }
          by_cases hc : capReached cfg (processLinkedIssues net
              { st with
                savedDiffs := st.savedDiffs ++ [p.number],
                savedPulls := st.savedPulls ++
                  [(p.number, _extract_linked_issue_numbers p.body cfg.owner cfg.repo)] }
              (_extract_linked_issue_numbers p.body cfg.owner cfg.repo)).numIssues = true
          · rw [if_pos hc]
            show x ∈ (processLinkedIssues net _ _).savedDiffs
            rw [hsp.2]
            exact List.mem_append_left _ hx
          · rw [if_neg hc]
            refine ih _ ?_
            show x ∈ (processLinkedIssues net _ _).savedDiffs
            rw [hsp.2]
            exact List.mem_append_left _ hx
        · simp only [Bool.not_eq_true] at hd
          rw [hp, hd]
          simp only [Bool.not_true, Bool.false_eq_true, if_false,
            Bool.not_false, if_true]
          exact ih _ hx
      · simp only [Bool.not_eq_true] at hp
        rw [hp]
        simp only [Bool.not_false, if_true]
        exact ih _ hx

/-- C8. Partial-failure tolerance of the pulls page loop body. First
conjunct: an in-window item whose pull-detail or diff fetch comes back
not ok is skipped — the state is exactly as if the item were absent, so
nothing is persisted for it and the remaining items of the page are
processed rather than the page or stream aborting. Second conjunct:
when both fetches come back ok, the pull is persisted with the
linked-issue list extracted from its body embedded under the
`linked_issue_numbers` field, together with its diff text. -/
theorem c8_skip_bad_pull :
    (∀ (cfg : CrawlCfg) (net : CrawlNet) (st : CrawlSt) (bad : PullItem)
        (ys : List PullItem),
      ¬(bad.created_at < cfg.start_date ∨ bad.created_at > cfg.end_date) →
      (net.pullOk bad.number = false ∨ net.diffOk bad.number = false) →
      processPullItems cfg net st (bad :: ys) = processPullItems cfg net st ys)
    ∧ (∀ (cfg : CrawlCfg) (net : CrawlNet) (st : CrawlSt) (p : PullItem)
        (ys : List PullItem),
      ¬(p.created_at < cfg.start_date ∨ p.created_at > cfg.end_date) →
      net.pullOk p.number = true → net.diffOk p.number = true →
      (p.number, _extract_linked_issue_numbers p.body cfg.owner cfg.repo) ∈
        (processPullItems cfg net st (p :: ys)).savedPulls
      ∧ p.number ∈ (processPullItems cfg net st (p :: ys)).savedDiffs) := by
  constructor
  · intro cfg net st bad ys hwin hbad
    simp only [processPullItems, if_neg hwin]
    rcases hbad with hb | hb
    · rw [hb]
      simp only [Bool.not_false, if_true]
    · rw [hb]
      simp only [Bool.not_false, if_true]
      cases hpo : net.pullOk bad.number <;> simp
  · intro cfg net st p ys hwin hp hd
    simp only [processPullItems, if_neg hwin, hp, hd, Bool.not_true,
      Bool.false_eq_true, if_false]
    have hsp := processLinkedIssues_saved net
      (_extract_linked_issue_numbers p.body cfg.owner cfg.repo)
      { st with
        savedDiffs := st.savedDiffs ++ [p.number],
        savedPulls := st.savedPulls ++
          [(p.number, _extract_linked_issue_numbers p.body cfg.owner cfg.repo)] }
    constructor
    · split
      · show _ ∈ (processLinkedIssues net _ _).savedPulls
        rw [hsp.1]
        exact List.mem_append_right _ (List.mem_singleton.mpr rfl)
      · refine processPullItems_savedPulls_mono cfg net ys _ _ ?_
        show _ ∈ (processLinkedIssues net _ _).savedPulls
        rw [hsp.1]
        exact List.mem_append_right _ (List.mem_singleton.mpr rfl)
    · split
      · show _ ∈ (processLinkedIssues net _ _).savedDiffs
        rw [hsp.2]
        exact List.mem_append_right _ (List.mem_singleton.mpr rfl)
      · refine processPullItems_savedDiffs_mono cfg net ys _ _ ?_
        show _ ∈ (processLinkedIssues net _ _).savedDiffs
        rw [hsp.2]
        exact List.mem_append_right _ (List.mem_singleton.mpr rfl)

/-- Witness for C8 at a concrete input: pull 2's detail fetch is not
ok, so the page `[badItem, goodItem]` processes exactly like
`[goodItem]`; pull 3's fetches succeed and it is persisted with linked
issues `[4]` extracted from its body, together with its diff. -/
theorem c8_skip_bad_pull_witness :
    (¬(badItem.created_at < cfgDemo.start_date ∨ badItem.created_at > cfgDemo.end_date)
      ∧ (netSkip.pullOk badItem.number = false ∨ netSkip.diffOk badItem.number = false)
      ∧ processPullItems cfgDemo netSkip crawlSt0 [badItem, goodItem] =
          processPullItems cfgDemo netSkip crawlSt0 [goodItem])
    ∧ (¬(goodItem.created_at < cfgDemo.start_date ∨ goodItem.created_at > cfgDemo.end_date)
      ∧ netSkip.pullOk goodItem.number = true ∧ netSkip.diffOk goodItem.number = true
      ∧ (goodItem.number,
          _extract_linked_issue_numbers goodItem.body cfgDemo.owner cfgDemo.repo) ∈
          (processPullItems cfgDemo netSkip crawlSt0 [goodItem]).savedPulls
      ∧ goodItem.number ∈
          (processPullItems cfgDemo netSkip crawlSt0 [goodItem]).savedDiffs) :=
  ⟨⟨by decide, by decide,
     c8_skip_bad_pull.1 cfgDemo netSkip crawlSt0 badItem [goodItem]
       (by decide) (by decide)⟩,
   ⟨by decide, by decide, by decide,
     (c8_skip_bad_pull.2 cfgDemo netSkip crawlSt0 goodItem []
       (by decide) (by decide) (by decide)).1,
     (c8_skip_bad_pull.2 cfgDemo netSkip crawlSt0 goodItem []
       (by decide) (by decide) (by decide)).2⟩⟩

/-- `sectionOf` refines the spec's first-matching-prefix rule. -/
theorem sectionOf_eq_firstMatchingSection (f : List Char) :
    sectionOf f = firstMatchingSection f := by
  simp only [sectionOf, _sections, nextIdxD, firstMatchingSection, List.length_cons,
    List.length_nil, Nat.reduceAdd, Nat.reduceSub]
  split_ifs <;> rfl

/-- `sectionOf` stays below the section count. -/
theorem sectionOf_lt (f : List Char) : sectionOf f < _sections.length := by
  rw [sectionOf_eq_firstMatchingSection]
  simp only [firstMatchingSection, _sections]
  split_ifs <;> decide

/-- Updating one section changes an attribute total by the change at
that section. -/
theorem attrTotal_update (sd : Nat → SectionData) (f : SectionData → Nat)
    (cs : Nat) (hcs : cs < _sections.length) (v : SectionData) (k : Nat)
    (hv : f v = f (sd cs) + k) :
    attrTotal f (Function.update sd cs v) = attrTotal f sd + k := by
  have h9 : cs < 9 := hcs
  have hr : List.range _sections.length = [0, 1, 2, 3, 4, 5, 6, 7, 8] := rfl
  simp only [attrTotal, hr, List.map_cons, List.map_nil, List.sum_cons, List.sum_nil]
  interval_cases cs <;> simp [Function.update_apply, hv] <;> omega

/-- A line starting with `+` does not start with `-`. -/
theorem startsWithChar_plus_not_minus (l : List Char)
    (h : startsWithChar '+' l = true) : startsWithChar '-' l = false := by
  cases l with
  | nil => simp [startsWithChar] at h
  | cons x xs =>
    simp only [startsWithChar, beq_iff_eq] at h ⊢
    subst h; decide

/-- A non-header line leaves every section's `changed_files`, the
current section, and the current filename unchanged. -/
theorem processDiffLine_nonheader (st : DiffState) (l : List Char)
    (hm : diffFileMatch l = none) :
    (∀ j, ((processDiffLine st l).sectionData j).changed_files
        = (st.sectionData j).changed_files)
    ∧ (processDiffLine st l).currentSection = st.currentSection
    ∧ (processDiffLine st l).currentFilename = st.currentFilename := by
  simp only [processDiffLine, hm]
  split_ifs with h1 h2
  · refine ⟨fun j => ?_, rfl, rfl⟩
    by_cases hj : j = st.currentSection
    · subst hj; simp [Function.update_apply]
    · simp [Function.update_apply, hj]
  · refine ⟨fun j => ?_, rfl, rfl⟩
    by_cases hj : j = st.currentSection
    · subst hj; simp [Function.update_apply]
    · simp [Function.update_apply, hj]
  · exact ⟨fun j => rfl, rfl, rfl⟩

/-- Bumping `changed_files` at one section leaves both line totals
unchanged. -/
theorem attrTotal_update_cf (sd : Nat → SectionData) (cs : Nat)
    (hcs : cs < _sections.length) :
    attrTotal SectionData.additions (Function.update sd cs
        { sd cs with changed_files := (sd cs).changed_files + 1 })
      = attrTotal SectionData.additions sd
    ∧ attrTotal SectionData.deletions (Function.update sd cs
        { sd cs with changed_files := (sd cs).changed_files + 1 })
      = attrTotal SectionData.deletions sd :=
  ⟨attrTotal_update sd SectionData.additions cs hcs
      { sd cs with changed_files := (sd cs).changed_files + 1 } 0 rfl,
   attrTotal_update sd SectionData.deletions cs hcs
      { sd cs with changed_files := (sd cs).changed_files + 1 } 0 rfl⟩

/-- Bumping `additions` at one section adds one to the additions total
and leaves the deletions total unchanged. -/
theorem attrTotal_update_add (sd : Nat → SectionData) (cs : Nat)
    (hcs : cs < _sections.length) :
    attrTotal SectionData.additions (Function.update sd cs
        { sd cs with additions := (sd cs).additions + 1 })
      = attrTotal SectionData.additions sd + 1
    ∧ attrTotal SectionData.deletions (Function.update sd cs
        { sd cs with additions := (sd cs).additions + 1 })
      = attrTotal SectionData.deletions sd :=
  ⟨attrTotal_update sd SectionData.additions cs hcs
      { sd cs with additions := (sd cs).additions + 1 } 1 rfl,
   attrTotal_update sd SectionData.deletions cs hcs
      { sd cs with additions := (sd cs).additions + 1 } 0 rfl⟩

/-- Bumping `deletions` at one section adds one to the deletions total
and leaves the additions total unchanged. -/
theorem attrTotal_update_del (sd : Nat → SectionData) (cs : Nat)
    (hcs : cs < _sections.length) :
    attrTotal SectionData.additions (Function.update sd cs
        { sd cs with deletions := (sd cs).deletions + 1 })
      = attrTotal SectionData.additions sd
    ∧ attrTotal SectionData.deletions (Function.update sd cs
        { sd cs with deletions := (sd cs).deletions + 1 })
      = attrTotal SectionData.deletions sd + 1 :=
  ⟨attrTotal_update sd SectionData.additions cs hcs
      { sd cs with deletions := (sd cs).deletions + 1 } 0 rfl,
   attrTotal_update sd SectionData.deletions cs hcs
      { sd cs with deletions := (sd cs).deletions + 1 } 1 rfl⟩

/-- Per-line accounting: one processed line adds its `addLine` /
`delLine` indicator to the additions / deletions totals, and keeps the
current section below the section count. -/
theorem processDiffLine_attrTotal (st : DiffState) (l : List Char)
    (hcs : st.currentSection < _sections.length) :
    attrTotal SectionData.additions (processDiffLine st l).sectionData
      = attrTotal SectionData.additions st.sectionData + (if addLine l then 1 else 0)
    ∧ attrTotal SectionData.deletions (processDiffLine st l).sectionData
      = attrTotal SectionData.deletions st.sectionData + (if delLine l then 1 else 0)
    ∧ (processDiffLine st l).currentSection < _sections.length := by
  cases hm : diffFileMatch l with
  | some filename =>
    have hadd : addLine l = false := by simp [addLine, hm]
    have hdel : delLine l = false := by simp [delLine, hm]
    simp only [processDiffLine, hm, hadd, hdel, Bool.false_eq_true, if_false, Nat.add_zero]
    by_cases h1 : filename ≠ st.currentFilename
    · rw [if_pos h1]
      exact ⟨(attrTotal_update_cf st.sectionData (sectionOf filename)
          (sectionOf_lt filename)).1,
        (attrTotal_update_cf st.sectionData (sectionOf filename)
          (sectionOf_lt filename)).2,
        sectionOf_lt filename⟩
    · rw [if_neg h1]
      exact ⟨rfl, rfl, hcs⟩
  | none =>
    have hnone : (diffFileMatch l).isNone = true := by simp [hm]
    simp only [processDiffLine, hm]
    by_cases h1 : (startsWithChar '+' l && !anchorMatch l) = true
    · rw [if_pos h1]
      have hadd : addLine l = true := by
        simp only [addLine, hnone, Bool.true_and]; exact h1
      have hdel : delLine l = false := by
        have h3 := startsWithChar_plus_not_minus l (Bool.and_elim_left h1)
        simp [delLine, h3]
      simp only [hadd, hdel, Bool.false_eq_true, if_true, if_false, Nat.add_zero]
      exact ⟨(attrTotal_update_add st.sectionData st.currentSection hcs).1,
        (attrTotal_update_add st.sectionData st.currentSection hcs).2, hcs⟩
    · rw [if_neg h1]
      have h1f : (startsWithChar '+' l && !anchorMatch l) = false :=
        Bool.eq_false_iff.mpr h1
      have hadd : addLine l = false := by
        simp only [addLine, hnone, Bool.true_and]; exact h1f
      by_cases h2 : (startsWithChar '-' l && !anchorMatch l) = true
      · rw [if_pos h2]
        have hdel : delLine l = true := by
          simp only [delLine, hnone, Bool.true_and]; exact h2
        simp only [hadd, hdel, Bool.false_eq_true, if_true, if_false, Nat.add_zero]
        exact ⟨(attrTotal_update_del st.sectionData st.currentSection hcs).1,
          (attrTotal_update_del st.sectionData st.currentSection hcs).2, hcs⟩
      · rw [if_neg h2]
        have h2f : (startsWithChar '-' l && !anchorMatch l) = false :=
          Bool.eq_false_iff.mpr h2
        have hdel : delLine l = false := by
          simp only [delLine, hnone, Bool.true_and]; exact h2f
        simp only [hadd, hdel, Bool.false_eq_true, if_false, Nat.add_zero]
        exact ⟨trivial, trivial, hcs⟩

/-- One line's contribution to the addition count. -/
theorem countAdds_cons (l : List Char) (ls : List (List Char)) :
    countAdds (l :: ls) = (if addLine l then 1 else 0) + countAdds ls := by
  simp only [countAdds, List.filter_cons]
  split_ifs <;> simp [Nat.add_comm]

/-- One line's contribution to the deletion count. -/
theorem countDels_cons (l : List Char) (ls : List (List Char)) :
    countDels (l :: ls) = (if delLine l then 1 else 0) + countDels ls := by
  simp only [countDels, List.filter_cons]
  split_ifs <;> simp [Nat.add_comm]

/-- Addition counts add over concatenation. -/
theorem countAdds_append (xs ys : List (List Char)) :
    countAdds (xs ++ ys) = countAdds xs + countAdds ys := by
  simp [countAdds, List.filter_append]

/-- Deletion counts add over concatenation. -/
theorem countDels_append (xs ys : List (List Char)) :
    countDels (xs ++ ys) = countDels xs + countDels ys := by
  simp [countDels, List.filter_append]

/-- Fold accounting: processing any line list adds exactly its
addition / deletion line counts to the totals. -/
theorem foldl_attrTotal (ls : List (List Char)) (st : DiffState)
    (hcs : st.currentSection < _sections.length) :
    attrTotal SectionData.additions ((ls.foldl processDiffLine st).sectionData)
      = attrTotal SectionData.additions st.sectionData + countAdds ls
    ∧ attrTotal SectionData.deletions ((ls.foldl processDiffLine st).sectionData)
      = attrTotal SectionData.deletions st.sectionData + countDels ls
    ∧ (ls.foldl processDiffLine st).currentSection < _sections.length := by
  induction ls generalizing st with
  | nil =>
    refine ⟨?_, ?_, hcs⟩ <;> simp [countAdds, countDels]
  | cons l ls ih =>
    have hstep := processDiffLine_attrTotal st l hcs
    have hih := ih (processDiffLine st l) hstep.2.2
    refine ⟨?_, ?_, hih.2.2⟩
    · rw [List.foldl_cons, hih.1, hstep.1, countAdds_cons]
      ring
    · rw [List.foldl_cons, hih.2.1, hstep.2.1, countDels_cons]
      ring

/-- Folding non-header lines preserves every section's `changed_files`,
the current section, and the current filename. -/
theorem foldl_nonheader_state (ls : List (List Char)) (st : DiffState)
    (h : ∀ l ∈ ls, diffFileMatch l = none) :
    (∀ j, ((ls.foldl processDiffLine st).sectionData j).changed_files
        = (st.sectionData j).changed_files)
    ∧ (ls.foldl processDiffLine st).currentSection = st.currentSection
    ∧ (ls.foldl processDiffLine st).currentFilename = st.currentFilename := by
  induction ls generalizing st with
  | nil => exact ⟨fun j => rfl, rfl, rfl⟩
  | cons l ls ih =>
    have hl := processDiffLine_nonheader st l (h l (List.mem_cons_self l ls))
    have hih := ih (processDiffLine st l) (fun x hx => h x (List.mem_cons_of_mem l hx))
    rw [List.foldl_cons]
    exact ⟨fun j => (hih.1 j).trans (hl.1 j),
      hih.2.1.trans hl.2.1, hih.2.2.trans hl.2.2⟩

/-- A header line introducing a filename different from the previously
seen one: assigns the file's section, bumps its `changed_files`, and
records the filename. -/
theorem processDiffLine_header (st : DiffState) (l filename : List Char)
    (hm : diffFileMatch l = some filename) (hne : filename ≠ st.currentFilename) :
    processDiffLine st l =
      { sectionData := Function.update st.sectionData (sectionOf filename)
          ({ st.sectionData (sectionOf filename) with
              changed_files := (st.sectionData (sectionOf filename)).changed_files + 1 }),
        currentSection := sectionOf filename,
        currentFilename := filename } := by
  simp only [processDiffLine, hm, if_pos hne]

/-- A header line repeating the previously seen filename is a no-op:
consecutive hunk headers for the same file do not double-count. -/
theorem processDiffLine_header_skip (st : DiffState) (l filename : List Char)
    (hm : diffFileMatch l = some filename) (heq : filename = st.currentFilename) :
    processDiffLine st l = st := by
  simp only [processDiffLine, hm]
  rw [if_neg (not_not_intro heq)]

/-- A header line's effect on one section's `changed_files`: the file's
section — the first matching prefix — gains one. -/
theorem processDiffLine_header_cf (st : DiffState) (l filename : List Char)
    (hm : diffFileMatch l = some filename) (hne : filename ≠ st.currentFilename)
    (j : Nat) :
    ((processDiffLine st l).sectionData j).changed_files
      = (st.sectionData j).changed_files + (if sectionOf filename = j then 1 else 0) := by
  rw [processDiffLine_header st l filename hm hne]
  by_cases hj : sectionOf filename = j
  · subst hj
    simp [Function.update_apply]
  · rw [if_neg hj]
    have hj' : j ≠ sectionOf filename := fun h => hj h.symm
    simp [Function.update_apply, hj']

/-- C2. Diff attribution for a two-file diff `headerA · bodyA · headerB
· bodyB` (bodies free of header lines, the two filenames distinct, the
first non-empty): each section's `changed_files` equals the number of
the two distinct files assigned to it; the additions and deletions
totals over all sections equal the respective line counts summed over
both files' bodies, regardless of hunk count; each file's section is
the first section whose path prefix matches, falling back to the
catch-all (`sectionOf` refines `firstMatchingSection`); and a header
repeating the current filename is a no-op, so a file is counted exactly
once. -/
theorem c2_section_attribution (A B hA hB : List Char)
    (bodyA bodyB : List (List Char))
    (hmA : diffFileMatch hA = some A) (hAnil : A ≠ [])
    (hmB : diffFileMatch hB = some B) (hBA : B ≠ A)
    (hbA : ∀ l ∈ bodyA, diffFileMatch l = none)
    (hbB : ∀ l ∈ bodyB, diffFileMatch l = none) :
    cfList ((_get_section_changes (hA :: (bodyA ++ hB :: bodyB))).sectionData)
        = cfTwoFiles A B
    ∧ attrTotal SectionData.additions
        ((_get_section_changes (hA :: (bodyA ++ hB :: bodyB))).sectionData)
        = countAdds bodyA + countAdds bodyB
    ∧ attrTotal SectionData.deletions
        ((_get_section_changes (hA :: (bodyA ++ hB :: bodyB))).sectionData)
        = countDels bodyA + countDels bodyB
    ∧ sectionOf A = firstMatchingSection A
    ∧ sectionOf B = firstMatchingSection B
    ∧ processDiffLine ((hA :: bodyA).foldl processDiffLine initDiffState) hA
        = (hA :: bodyA).foldl processDiffLine initDiffState := by
  have hcs0 : initDiffState.currentSection < _sections.length := by decide
  have hne1 : A ≠ initDiffState.currentFilename := hAnil
  have h2 := foldl_nonheader_state bodyA (processDiffLine initDiffState hA) hbA
  have hfn2 : (bodyA.foldl processDiffLine
      (processDiffLine initDiffState hA)).currentFilename = A := by
    rw [h2.2.2, processDiffLine_header initDiffState hA A hmA hne1]
  have hne2 : B ≠ (bodyA.foldl processDiffLine
      (processDiffLine initDiffState hA)).currentFilename := by
    rw [hfn2]; exact hBA
  have h4 := foldl_nonheader_state bodyB
    (processDiffLine (bodyA.foldl processDiffLine (processDiffLine initDiffState hA)) hB)
    hbB
  have hfold : _get_section_changes (hA :: (bodyA ++ hB :: bodyB))
      = bodyB.foldl processDiffLine
          (processDiffLine
            (bodyA.foldl processDiffLine (processDiffLine initDiffState hA)) hB) := by
    simp [_get_section_changes, List.foldl_cons, List.foldl_append]
  have hcf : ∀ j,
      ((_get_section_changes (hA :: (bodyA ++ hB :: bodyB))).sectionData j).changed_files
        = (if sectionOf A = j then 1 else 0) + (if sectionOf B = j then 1 else 0) := by
    intro j
    rw [hfold, h4.1 j,
      processDiffLine_header_cf _ hB B hmB hne2 j, h2.1 j,
      processDiffLine_header_cf initDiffState hA A hmA hne1 j]
    have h0 : ((initDiffState).sectionData j).changed_files = 0 := rfl
    rw [h0, Nat.zero_add]
  have htot := foldl_attrTotal (hA :: (bodyA ++ hB :: bodyB)) initDiffState hcs0
  have haddA : addLine hA = false := by simp [addLine, hmA]
  have haddB : addLine hB = false := by simp [addLine, hmB]
  have hdelA : delLine hA = false := by simp [delLine, hmA]
  have hdelB : delLine hB = false := by simp [delLine, hmB]
  refine ⟨?_, ?_, ?_, sectionOf_eq_firstMatchingSection A,
    sectionOf_eq_firstMatchingSection B, ?_⟩
  · simp only [cfList, cfTwoFiles]
    exact List.map_congr_left (fun j _ => hcf j)
  · show attrTotal SectionData.additions
      (((hA :: (bodyA ++ hB :: bodyB)).foldl processDiffLine initDiffState).sectionData)
      = countAdds bodyA + countAdds bodyB
    rw [htot.1, countAdds_cons, countAdds_append, countAdds_cons]
    simp [haddA, haddB]
    rfl
  · show attrTotal SectionData.deletions
      (((hA :: (bodyA ++ hB :: bodyB)).foldl processDiffLine initDiffState).sectionData)
      = countDels bodyA + countDels bodyB
    rw [htot.2.1, countDels_cons, countDels_append, countDels_cons]
    simp [hdelA, hdelB]
    rfl
  · show processDiffLine (bodyA.foldl processDiffLine (processDiffLine initDiffState hA)) hA
      = bodyA.foldl processDiffLine (processDiffLine initDiffState hA)
    exact processDiffLine_header_skip _ hA A hmA hfn2.symm

/-- Witness for C2 at a concrete two-file diff: `src/a.ts` (two hunks:
2 additions, 1 deletion) and `README.md` (anchor lines plus 1
addition). Section `src/` and the catch-all each receive one file; the
totals are 3 additions and 1 deletion. -/
theorem c2_section_attribution_witness :
    (diffFileMatch headerA = some fileA ∧ fileA ≠ []
      ∧ diffFileMatch headerB = some fileB ∧ fileB ≠ fileA
      ∧ (∀ l ∈ bodyADemo, diffFileMatch l = none)
      ∧ (∀ l ∈ bodyBDemo, diffFileMatch l = none))
    ∧ (cfList ((_get_section_changes
          (headerA :: (bodyADemo ++ headerB :: bodyBDemo))).sectionData)
        = cfTwoFiles fileA fileB
      ∧ attrTotal SectionData.additions
          ((_get_section_changes
            (headerA :: (bodyADemo ++ headerB :: bodyBDemo))).sectionData)
          = countAdds bodyADemo + countAdds bodyBDemo
      ∧ attrTotal SectionData.deletions
          ((_get_section_changes
            (headerA :: (bodyADemo ++ headerB :: bodyBDemo))).sectionData)
          = countDels bodyADemo + countDels bodyBDemo
      ∧ sectionOf fileA = firstMatchingSection fileA
      ∧ sectionOf fileB = firstMatchingSection fileB
      ∧ processDiffLine ((headerA :: bodyADemo).foldl processDiffLine initDiffState)
            headerA
          = (headerA :: bodyADemo).foldl processDiffLine initDiffState) :=
  ⟨⟨by decide, by decide, by decide, by decide, by decide, by decide⟩,
   c2_section_attribution fileA fileB headerA headerB bodyADemo bodyBDemo
     (by decide) (by decide) (by decide) (by decide) (by decide) (by decide)⟩

/-- C9. The export step's sum check (writer.py lines 175-180) only
logs: for every pull, diff, and window, the section data the rows are
built from is exactly `_get_section_changes diff` — never adjusted, the
catch-all never reconciled; the logged attributes are exactly those
whose section sum differs from the pull's reported total; one row per
in-window linked issue is produced from that unadjusted data; and the
rows and section data are unchanged under any alteration of the pull's
reported totals — a mismatch changes nothing but the log. The final
conjuncts evaluate a concrete pull whose three reported totals all
disagree with its diff: all three attributes are logged, and the row
for its linked issue 4 is still produced. -/
theorem c9_sum_check_logs_only :
    (∀ (startDate endDate : Int) (pull : WPull) (diff : List (List Char))
        (issueCreatedAt : Nat → Int),
      (processPullExport startDate endDate pull diff issueCreatedAt).section_data
        = (_get_section_changes diff).sectionData
      ∧ (processPullExport startDate endDate pull diff issueCreatedAt).mismatchLogs
        = _section_attributes.filter
            (fun a => decide (sectionAttrSum (_get_section_changes diff).sectionData a
              ≠ pullAttr pull a))
      ∧ (processPullExport startDate endDate pull diff issueCreatedAt).rows
        = ((pull.linked_issue_numbers.insertionSort (· ≤ ·)).filter
            (fun n => !decide (issueCreatedAt n < startDate ∨ issueCreatedAt n > endDate))).map
            (fun n => (n, (_get_section_changes diff).sectionData))
      ∧ ∀ cf ad de : Nat,
          (processPullExport startDate endDate
              ⟨cf, ad, de, pull.linked_issue_numbers⟩ diff issueCreatedAt).rows
            = (processPullExport startDate endDate pull diff issueCreatedAt).rows
          ∧ (processPullExport startDate endDate
              ⟨cf, ad, de, pull.linked_issue_numbers⟩ diff issueCreatedAt).section_data
            = (processPullExport startDate endDate pull diff issueCreatedAt).section_data)
    ∧ (processPullExport 0 100 pullMismatch diffDemo (fun _ => 5)).mismatchLogs
      = _section_attributes
    ∧ ((processPullExport 0 100 pullMismatch diffDemo (fun _ => 5)).rows).map Prod.fst
      = [4] := by
  refine ⟨fun startDate endDate pull diff issueCreatedAt =>
    ⟨rfl, rfl, rfl, fun cf ad de => ⟨rfl, rfl⟩⟩, ?_, ?_⟩ <;> decide
